import Mathlib

/-!
Shallow embedding of the analytics core of the `utils` repository
(`pkg/storage/stats.go`): the single-match reducer `StatsFromGameAndEvents`
and the teammate ranking queries `BestTeammateByRole` / `WorstTeammateByRole`.

Machine integers are modelled as `Int` (no arithmetic here can overflow at
the claim level), times are seconds as `Int`, and the Go `nil` pointer for
the match record is `Option PostgresGame`.  A Go panic (nil-pointer
dereference) is modelled by the reducer returning `none`.
-/

namespace AMU

/-- Modelled from the spec: the discrete phase codes compared against a
phase-state payload (`game.DISCUSS` / `game.TASKS` of the `game` package,
which is not part of the sources).  Only their distinctness matters. -/
def DiscussCode : String := "2"

/-- Modelled from the spec: the tasks phase code (see `DiscussCode`). -/
def TasksCode : String := "1"

/-- Modelled from the spec: the player-action code for a death
(`game.DIED`); the `game` package is not part of the sources, only
distinctness of the three action codes matters. -/
def DIED : Int := 2

/-- Modelled from the spec: the player-action code for a disconnect
(`game.DISCONNECTED`). -/
def DISCONNECTED : Int := 5

/-- Modelled from the spec: the player-action code for an
elimination-by-vote (`game.EXILED`). -/
def EXILED : Int := 6

/-- Modelled from the spec: the event-kind code of a phase-state event
(`capture.State` of the `capture` package, not part of the sources). -/
def captureState : Int := 2

/-- Modelled from the spec: the event-kind code of a player-action event
(`capture.Player`). -/
def capturePlayer : Int := 3

/-- Modelled from the spec: the eight typed win conditions are small
integer codes 0-6 plus `Unknown`; the reducer stores the raw code cast to
this type (`game.GameResult`).  The three Crewmate conditions are 0, 1, 6
and the four Imposter conditions are 2, 3, 4, 5. -/
def HumansByTask : Int := 0

/-- Modelled from the spec (see `HumansByTask`). -/
def HumansByVote : Int := 1

/-- Modelled from the spec (see `HumansByTask`). -/
def ImpostorByVote : Int := 2

/-- Modelled from the spec (see `HumansByTask`). -/
def ImpostorByKill : Int := 3

/-- Modelled from the spec (see `HumansByTask`). -/
def ImpostorBySabotage : Int := 4

/-- Modelled from the spec (see `HumansByTask`). -/
def ImpostorDisconnect : Int := 5

/-- Modelled from the spec (see `HumansByTask`). -/
def HumansDisconnect : Int := 6

/-- Modelled from the spec (see `HumansByTask`): the eighth, out-of-range
win condition `game.Unknown`. -/
def Unknown : Int := 7

/-- Modelled from the spec: `game.CrewmateRole` (the winning-faction type
`game.GameRole`, not part of the sources). -/
def CrewmateRole : Int := 0

/-- Modelled from the spec: `game.ImposterRole`. -/
def ImposterRole : Int := 1

/-- Modelled from the spec: the structured action record decoded from a
player-action payload by `json.Unmarshal` into `game.Player`.  Only the
`Action` and `Name` fields are read by the reducer. -/
structure Player where
  action : Int
  name : String
  deriving Repr, DecidableEq

/-- `storage.SimpleEventType` (stats.go). -/
inductive SimpleEventType where
  | Tasks
  | Discuss
  | PlayerDeath
  | PlayerDisconnect
  | PlayerExiled
  deriving Repr, DecidableEq

/-- `storage.SimpleEvent` (stats.go); the time offset is in seconds. -/
structure SimpleEvent where
  eventType : SimpleEventType
  eventTimeOffset : Int
  data : String
  deriving Repr, DecidableEq

/-- `storage.GameStatistics` (stats.go); times are Unix seconds, the
duration is in seconds, `winType` is the raw `game.GameResult` code and
`winRole` the `game.GameRole` code. -/
structure GameStatistics where
  gameStartTime : Int
  gameEndTime : Int
  gameDuration : Int
  winType : Int
  winRole : Int
  winPlayerNames : List String
  losePlayerNames : List String
  numMeetings : Nat
  numDeaths : Nat
  numVotedOff : Nat
  numDisconnects : Nat
  events : List SimpleEvent
  deriving Repr, DecidableEq

/-- `storage.PostgresGame` (types.go, shape visible in `types_test.go`):
identity, guild, connect code, start/end times (seconds) and the raw
win-condition code. -/
structure PostgresGame where
  gameID : Int
  guildID : Int
  connectCode : String
  startTime : Int
  winType : Int
  endTime : Int
  deriving Repr, DecidableEq

/-- `storage.PostgresGameEvent` (types.go, shape visible in
`types_test.go`). -/
structure PostgresGameEvent where
  eventID : Int
  userID : Option String
  gameID : Int
  eventTime : Int
  eventType : Int
  payload : String
  deriving Repr, DecidableEq

/-- `storage.PostgresUserGame`: one row per (user, match) with the player
display name and win flag read by the reducer. -/
structure PostgresUserGame where
  userID : String
  guildID : Int
  gameID : Int
  playerName : String
  playerColor : Int
  playerRole : Int
  playerWon : Bool
  deriving Repr, DecidableEq

/-- The time offset `time.Second * time.Duration(v.EventTime-pgame.StartTime)`
of stats.go, in seconds.  When `pgame` is the Go `nil` pointer the
dereference `pgame.StartTime` panics, modelled as `none`. -/
def matchOffset (pgame : Option PostgresGame) (v : PostgresGameEvent) : Option Int :=
  match pgame with
  | some g => some (v.eventTime - g.startTime)
  | none => none

/-- One iteration of the event loop of `StatsFromGameAndEvents`
(stats.go lines 322-378), carrying the statistics under construction and
the `exiledPlayerNames` list.  `decode` stands for
`json.Unmarshal([]byte(v.Payload), &player)`; decode failure skips the
event.  `none` models a nil-pointer panic computing the time offset. -/
def stepEvent (decode : String → Option Player) (pgame : Option PostgresGame)
    (acc : GameStatistics × List String) (v : PostgresGameEvent) :
    Option (GameStatistics × List String) :=
  let stats := acc.1
  let exiled := acc.2
  if v.eventType == captureState then
    if v.payload == DiscussCode then
      match matchOffset pgame v with
      | none => none
      | some off =>
          some ({ stats with
                    numMeetings := stats.numMeetings + 1,
                    events := stats.events ++ [⟨SimpleEventType.Discuss, off, ""⟩] },
                exiled)
    else if v.payload == TasksCode then
      match matchOffset pgame v with
      | none => none
      | some off =>
          some ({ stats with
                    events := stats.events ++ [⟨SimpleEventType.Tasks, off, ""⟩] },
                exiled)
    else
      some acc
  else if v.eventType == capturePlayer then
    match decode v.payload with
    | none => some acc
    | some player =>
        if player.action == DIED then
          let stats1 := { stats with numDeaths := stats.numDeaths + 1 }
          if exiled.contains player.name then
            some (stats1, exiled)
          else
            match matchOffset pgame v with
            | none => none
            | some off =>
                some ({ stats1 with
                          events := stats1.events ++
                            [⟨SimpleEventType.PlayerDeath, off, v.payload⟩] },
                      exiled)
        else if player.action == EXILED then
          match matchOffset pgame v with
          | none => none
          | some off =>
              some ({ stats with
                        numVotedOff := stats.numVotedOff + 1,
                        events := stats.events ++
                          [⟨SimpleEventType.PlayerExiled, off, v.payload⟩] },
                    exiled ++ [player.name])
        else if player.action == DISCONNECTED then
          match matchOffset pgame v with
          | none => none
          | some off =>
              some ({ stats with
                        numDisconnects := stats.numDisconnects + 1,
                        events := stats.events ++
                          [⟨SimpleEventType.PlayerDisconnect, off, v.payload⟩] },
                    exiled)
        else
          some acc
  else
    some acc

/-- The event loop of `StatsFromGameAndEvents` over the whole sequence. -/
def processEvents (decode : String → Option Player) (pgame : Option PostgresGame) :
    List PostgresGameEvent → GameStatistics × List String →
    Option (GameStatistics × List String)
  | [], acc => some acc
  | v :: rest, acc =>
      match stepEvent decode pgame acc v with
      | none => none
      | some acc2 => processEvents decode pgame rest acc2

/-- The struct literal initialising `stats` in `StatsFromGameAndEvents`
(stats.go lines 285-296; `NumVotedOff`/`NumDisconnects` are Go
zero-valued). -/
def baseStats : GameStatistics :=
  { gameStartTime := 0, gameEndTime := 0, gameDuration := 0,
    winType := Unknown, winRole := CrewmateRole,
    winPlayerNames := [], losePlayerNames := [],
    numMeetings := 0, numDeaths := 0, numVotedOff := 0, numDisconnects := 0,
    events := [] }

/-- The `if pgame != nil` block of stats.go lines 298-303: copy the times,
duration and the raw win-condition code from the match record. -/
def statsOfGame (pgame : Option PostgresGame) : GameStatistics :=
  match pgame with
  | none => baseStats
  | some g =>
      { baseStats with
          gameStartTime := g.startTime, gameEndTime := g.endTime,
          gameDuration := g.endTime - g.startTime, winType := g.winType }

/-- Stats.go lines 305-307: the four Imposter win conditions flip the
winning role to `ImposterRole`. -/
def statsWithRole (pgame : Option PostgresGame) : GameStatistics :=
  let stats1 := statsOfGame pgame
  if stats1.winType == ImpostorDisconnect || stats1.winType == ImpostorBySabotage
      || stats1.winType == ImpostorByVote || stats1.winType == ImpostorByKill then
    { stats1 with winRole := ImposterRole }
  else stats1

/-- The body of the winner/loser bucketing loop of stats.go lines 309-315. -/
def addUserName (s : GameStatistics) (u : PostgresUserGame) : GameStatistics :=
  if u.playerWon then
    { s with winPlayerNames := s.winPlayerNames ++ [u.playerName] }
  else
    { s with losePlayerNames := s.losePlayerNames ++ [u.playerName] }

/-- The statistics right before the event loop: defaults, match fields,
winning role and the winner/loser partition. -/
def preStats (pgame : Option PostgresGame) (users : List PostgresUserGame) :
    GameStatistics :=
  users.foldl addUserName (statsWithRole pgame)

/-- `storage.StatsFromGameAndEvents` (stats.go lines 284-381).  `decode`
abstracts the JSON decoding of a player-action payload; a `none` result
models a Go panic (nil `pgame` dereferenced while building a timeline
entry). -/
def StatsFromGameAndEvents (decode : String → Option Player)
    (pgame : Option PostgresGame) (events : List PostgresGameEvent)
    (users : List PostgresUserGame) : Option GameStatistics :=
  if events.length < 2 then some (preStats pgame users)
  else (processEvents decode pgame events (preStats pgame users, [])).map Prod.fst

/-- The event-loop iteration specialised to a present match record: with
`pgame = some g` no offset computation can panic, so `stepEvent` is total
and equals this pure function (`stepEvent_some`). -/
def stepEventP (decode : String → Option Player) (g : PostgresGame)
    (acc : GameStatistics × List String) (v : PostgresGameEvent) :
    GameStatistics × List String :=
  let stats := acc.1
  let exiled := acc.2
  let off : Int := v.eventTime - g.startTime
  if v.eventType == captureState then
    if v.payload == DiscussCode then
      ({ stats with
           numMeetings := stats.numMeetings + 1,
           events := stats.events ++ [⟨SimpleEventType.Discuss, off, ""⟩] },
       exiled)
    else if v.payload == TasksCode then
      ({ stats with
           events := stats.events ++ [⟨SimpleEventType.Tasks, off, ""⟩] },
       exiled)
    else
      acc
  else if v.eventType == capturePlayer then
    match decode v.payload with
    | none => acc
    | some player =>
        if player.action == DIED then
          let stats1 := { stats with numDeaths := stats.numDeaths + 1 }
          if exiled.contains player.name then
            (stats1, exiled)
          else
            ({ stats1 with
                 events := stats1.events ++
                   [⟨SimpleEventType.PlayerDeath, off, v.payload⟩] },
             exiled)
        else if player.action == EXILED then
          ({ stats with
               numVotedOff := stats.numVotedOff + 1,
               events := stats.events ++
                 [⟨SimpleEventType.PlayerExiled, off, v.payload⟩] },
           exiled ++ [player.name])
        else if player.action == DISCONNECTED then
          ({ stats with
               numDisconnects := stats.numDisconnects + 1,
               events := stats.events ++
                 [⟨SimpleEventType.PlayerDisconnect, off, v.payload⟩] },
           exiled)
        else
          acc
  else
    acc

/-- The event loop specialised to a present match record. -/
def processEventsP (decode : String → Option Player) (g : PostgresGame) :
    List PostgresGameEvent → GameStatistics × List String →
    GameStatistics × List String
  | [], acc => acc
  | v :: rest, acc => processEventsP decode g rest (stepEventP decode g acc v)

theorem stepEvent_some (decode : String → Option Player) (g : PostgresGame)
    (acc : GameStatistics × List String) (v : PostgresGameEvent) :
    stepEvent decode (some g) acc v = some (stepEventP decode g acc v) := by
  unfold stepEvent stepEventP matchOffset
  dsimp only
  split
  · split
    · rfl
    · split
      · rfl
      · rfl
  · split
    · split
      · rfl
      · split
        · split
          · rfl
          · rfl
        · split
          · rfl
          · split
            · rfl
            · rfl
    · rfl

theorem processEvents_some (decode : String → Option Player) (g : PostgresGame)
    (evs : List PostgresGameEvent) (acc : GameStatistics × List String) :
    processEvents decode (some g) evs acc =
      some (processEventsP decode g evs acc) := by
  induction evs generalizing acc with
  | nil => rfl
  | cons v rest ih =>
      simp only [processEvents, processEventsP, stepEvent_some]
      exact ih _

/-- Does this raw event successfully decode to a `Died` player action?
(spec-side predicate used to count deaths). -/
def diedParsed (decode : String → Option Player) (v : PostgresGameEvent) : Bool :=
  v.eventType == capturePlayer &&
    match decode v.payload with
    | some p => p.action == DIED
    | none => false

/-- The number of player-action events whose payload decodes to a `Died`
action. -/
def countDied (decode : String → Option Player)
    (evs : List PostgresGameEvent) : Nat :=
  (evs.filter (diedParsed decode)).length

/-- The number of timeline entries of a given kind. -/
def countEntriesOfType (t : SimpleEventType) (es : List SimpleEvent) : Nat :=
  (es.filter (fun e => e.eventType == t)).length

/-- Spec-side recursion, following the spec's words: scanning the events in
order while maintaining the eliminated set, a `Died` action contributes one
`PlayerDeath` timeline entry exactly when its player's name is not already
in the eliminated set, and only `Exiled` actions grow the set. -/
def specDeathEntries (decode : String → Option Player) :
    List PostgresGameEvent → List String → Nat
  | [], _ => 0
  | v :: rest, exiled =>
      if v.eventType == capturePlayer then
        match decode v.payload with
        | some p =>
            if p.action == DIED then
              (if exiled.contains p.name then 0 else 1) +
                specDeathEntries decode rest exiled
            else if p.action == EXILED then
              specDeathEntries decode rest (exiled ++ [p.name])
            else specDeathEntries decode rest exiled
        | none => specDeathEntries decode rest exiled
      else specDeathEntries decode rest exiled

/-- The player names of the events that decode to an `Exiled` action, in
scan order. -/
def exiledNames (decode : String → Option Player) :
    List PostgresGameEvent → List String
  | [] => []
  | v :: rest =>
      if v.eventType == capturePlayer then
        match decode v.payload with
        | some p =>
            if p.action == EXILED then p.name :: exiledNames decode rest
            else exiledNames decode rest
        | none => exiledNames decode rest
      else exiledNames decode rest

/-- Does the string decode to a player record with name `n`? -/
def nameDecodes (decode : String → Option Player) (n : String) (s : String) : Bool :=
  match decode s with
  | some p => p.name == n
  | none => false

/-- The number of player-action events decoding to a `Died` action for the
player named `n`. -/
def countDiedFor (decode : String → Option Player) (n : String)
    (evs : List PostgresGameEvent) : Nat :=
  (evs.filter (fun v => diedParsed decode v && nameDecodes decode n v.payload)).length

/-- The number of `PlayerDeath` timeline entries whose payload decodes to
the player named `n`. -/
def countDeathEntriesFor (decode : String → Option Player) (n : String)
    (es : List SimpleEvent) : Nat :=
  (es.filter (fun e =>
    e.eventType == SimpleEventType.PlayerDeath && nameDecodes decode n e.data)).length

/-- Does the sequence contain an event decoding to an `Exiled` action for
the player named `n`? -/
def hasExiledFor (decode : String → Option Player) (n : String)
    (evs : List PostgresGameEvent) : Bool :=
  evs.any (fun v => v.eventType == capturePlayer &&
    match decode v.payload with
    | some p => p.action == EXILED && p.name == n
    | none => false)

theorem countDied_cons (decode : String → Option Player)
    (v : PostgresGameEvent) (rest : List PostgresGameEvent) :
    countDied decode (v :: rest) =
      (if diedParsed decode v then 1 else 0) + countDied decode rest := by
  by_cases h : diedParsed decode v <;>
    simp [countDied, List.filter_cons, h, Nat.add_comm]

theorem exiledNames_cons (decode : String → Option Player)
    (v : PostgresGameEvent) (rest : List PostgresGameEvent) :
    exiledNames decode (v :: rest) =
      exiledNames decode [v] ++ exiledNames decode rest := by
  by_cases hs : v.eventType = capturePlayer
  · rcases hd : decode v.payload with _ | p
    · simp [exiledNames, hs, hd]
    · by_cases ha : p.action = EXILED
      · simp [exiledNames, hs, hd, ha]
      · simp [exiledNames, hs, hd, ha]
  · simp [exiledNames, hs]

theorem specDeathEntries_cons (decode : String → Option Player)
    (v : PostgresGameEvent) (rest : List PostgresGameEvent) (ex : List String) :
    specDeathEntries decode (v :: rest) ex =
      specDeathEntries decode [v] ex +
        specDeathEntries decode rest (ex ++ exiledNames decode [v]) := by
  by_cases hs : v.eventType = capturePlayer
  · rcases hd : decode v.payload with _ | p
    · simp [specDeathEntries, exiledNames, hs, hd]
    · by_cases hdied : p.action = DIED
      · simp [specDeathEntries, exiledNames, hs, hd, hdied, show ¬DIED = EXILED by decide]
      · by_cases hex : p.action = EXILED
        · simp [specDeathEntries, exiledNames, hs, hd, hdied, hex,
            show ¬EXILED = DIED by decide]
        · simp [specDeathEntries, exiledNames, hs, hd, hdied, hex]
  · simp [specDeathEntries, exiledNames, hs]

theorem hasExiledFor_cons (decode : String → Option Player) (n : String)
    (v : PostgresGameEvent) (rest : List PostgresGameEvent) :
    hasExiledFor decode n (v :: rest) =
      (hasExiledFor decode n [v] || hasExiledFor decode n rest) := by
  simp [hasExiledFor, List.any_cons]

theorem countDiedFor_cons (decode : String → Option Player) (n : String)
    (v : PostgresGameEvent) (rest : List PostgresGameEvent) :
    countDiedFor decode n (v :: rest) =
      countDiedFor decode n [v] + countDiedFor decode n rest := by
  by_cases h : diedParsed decode v && nameDecodes decode n v.payload <;>
    simp [countDiedFor, List.filter_cons, h, Nat.add_comm]

theorem exiledNames_contains (decode : String → Option Player) (n : String)
    (v : PostgresGameEvent) :
    (exiledNames decode [v]).contains n = hasExiledFor decode n [v] := by
  by_cases hs : v.eventType = capturePlayer
  · rcases hd : decode v.payload with _ | p
    · simp [exiledNames, hasExiledFor, hs, hd]
    · by_cases hex : p.action = EXILED
      · by_cases hn : p.name = n
        · simp [exiledNames, hasExiledFor, hs, hd, hex, hn]
        · simp [exiledNames, hasExiledFor, hs, hd, hex, hn, Ne.symm hn]
      · simp [exiledNames, hasExiledFor, hs, hd, hex]
  · simp [exiledNames, hasExiledFor, hs]

theorem tasksCode_ne_discussCode : ¬TasksCode = DiscussCode := by decide

theorem capturePlayer_ne_captureState : ¬capturePlayer = captureState := by decide

theorem captureState_ne_capturePlayer : ¬captureState = capturePlayer := by decide

theorem exiled_ne_died : ¬EXILED = DIED := by decide

theorem disconnected_ne_died : ¬DISCONNECTED = DIED := by decide

theorem disconnected_ne_exiled : ¬DISCONNECTED = EXILED := by decide

theorem died_ne_exiled : ¬DIED = EXILED := by decide

theorem stepEventP_numDeaths (decode : String → Option Player) (g : PostgresGame)
    (acc : GameStatistics × List String) (v : PostgresGameEvent) :
    (stepEventP decode g acc v).1.numDeaths =
      acc.1.numDeaths + (if diedParsed decode v then 1 else 0) := by
  by_cases hs : v.eventType = captureState
  · by_cases h1 : v.payload = DiscussCode
    · simp [stepEventP, capturePlayer_ne_captureState, captureState_ne_capturePlayer, tasksCode_ne_discussCode, exiled_ne_died, disconnected_ne_died, disconnected_ne_exiled, died_ne_exiled, diedParsed, hs, h1, tasksCode_ne_discussCode, capturePlayer_ne_captureState, captureState_ne_capturePlayer]
    · by_cases h2 : v.payload = TasksCode
      · simp [stepEventP, capturePlayer_ne_captureState, captureState_ne_capturePlayer, tasksCode_ne_discussCode, exiled_ne_died, disconnected_ne_died, disconnected_ne_exiled, died_ne_exiled, diedParsed, hs, h1, h2, tasksCode_ne_discussCode, capturePlayer_ne_captureState, captureState_ne_capturePlayer]
      · simp [stepEventP, capturePlayer_ne_captureState, captureState_ne_capturePlayer, tasksCode_ne_discussCode, exiled_ne_died, disconnected_ne_died, disconnected_ne_exiled, died_ne_exiled, diedParsed, hs, h1, h2, tasksCode_ne_discussCode, capturePlayer_ne_captureState, captureState_ne_capturePlayer]
  · by_cases hp : v.eventType = capturePlayer
    · rcases hd : decode v.payload with _ | p
      · simp [stepEventP, capturePlayer_ne_captureState, captureState_ne_capturePlayer, tasksCode_ne_discussCode, exiled_ne_died, disconnected_ne_died, disconnected_ne_exiled, died_ne_exiled, diedParsed, hs, hp, hd, capturePlayer_ne_captureState, captureState_ne_capturePlayer]
      · by_cases hdied : p.action = DIED
        · by_cases hc : p.name ∈ acc.2
          · simp [stepEventP, capturePlayer_ne_captureState, captureState_ne_capturePlayer, tasksCode_ne_discussCode, exiled_ne_died, disconnected_ne_died, disconnected_ne_exiled, died_ne_exiled, diedParsed, hs, hp, hd, hdied, hc, capturePlayer_ne_captureState, captureState_ne_capturePlayer]
          · simp [stepEventP, capturePlayer_ne_captureState, captureState_ne_capturePlayer, tasksCode_ne_discussCode, exiled_ne_died, disconnected_ne_died, disconnected_ne_exiled, died_ne_exiled, diedParsed, hs, hp, hd, hdied, hc, capturePlayer_ne_captureState, captureState_ne_capturePlayer]
        · by_cases hex : p.action = EXILED
          · simp [stepEventP, capturePlayer_ne_captureState, captureState_ne_capturePlayer, tasksCode_ne_discussCode, exiled_ne_died, disconnected_ne_died, disconnected_ne_exiled, died_ne_exiled, diedParsed, hs, hp, hd, hdied, hex, capturePlayer_ne_captureState, captureState_ne_capturePlayer]
          · by_cases hdc : p.action = DISCONNECTED
            · simp [stepEventP, capturePlayer_ne_captureState, captureState_ne_capturePlayer, tasksCode_ne_discussCode, exiled_ne_died, disconnected_ne_died, disconnected_ne_exiled, died_ne_exiled, diedParsed, hs, hp, hd, hdied, hex, hdc, capturePlayer_ne_captureState, captureState_ne_capturePlayer]
            · simp [stepEventP, capturePlayer_ne_captureState, captureState_ne_capturePlayer, tasksCode_ne_discussCode, exiled_ne_died, disconnected_ne_died, disconnected_ne_exiled, died_ne_exiled, diedParsed, hs, hp, hd, hdied, hex, hdc, capturePlayer_ne_captureState, captureState_ne_capturePlayer]
    · simp [stepEventP, capturePlayer_ne_captureState, captureState_ne_capturePlayer, tasksCode_ne_discussCode, exiled_ne_died, disconnected_ne_died, disconnected_ne_exiled, died_ne_exiled, diedParsed, hs, hp, capturePlayer_ne_captureState, captureState_ne_capturePlayer]

theorem stepEventP_snd (decode : String → Option Player) (g : PostgresGame)
    (acc : GameStatistics × List String) (v : PostgresGameEvent) :
    (stepEventP decode g acc v).2 = acc.2 ++ exiledNames decode [v] := by
  by_cases hs : v.eventType = captureState
  · by_cases h1 : v.payload = DiscussCode
    · simp [stepEventP, capturePlayer_ne_captureState, captureState_ne_capturePlayer, tasksCode_ne_discussCode, exiled_ne_died, disconnected_ne_died, disconnected_ne_exiled, died_ne_exiled, exiledNames, hs, h1, tasksCode_ne_discussCode, capturePlayer_ne_captureState, captureState_ne_capturePlayer]
    · by_cases h2 : v.payload = TasksCode
      · simp [stepEventP, capturePlayer_ne_captureState, captureState_ne_capturePlayer, tasksCode_ne_discussCode, exiled_ne_died, disconnected_ne_died, disconnected_ne_exiled, died_ne_exiled, exiledNames, hs, h1, h2, tasksCode_ne_discussCode, capturePlayer_ne_captureState, captureState_ne_capturePlayer]
      · simp [stepEventP, capturePlayer_ne_captureState, captureState_ne_capturePlayer, tasksCode_ne_discussCode, exiled_ne_died, disconnected_ne_died, disconnected_ne_exiled, died_ne_exiled, exiledNames, hs, h1, h2, tasksCode_ne_discussCode, capturePlayer_ne_captureState, captureState_ne_capturePlayer]
  · by_cases hp : v.eventType = capturePlayer
    · rcases hd : decode v.payload with _ | p
      · simp [stepEventP, capturePlayer_ne_captureState, captureState_ne_capturePlayer, tasksCode_ne_discussCode, exiled_ne_died, disconnected_ne_died, disconnected_ne_exiled, died_ne_exiled, exiledNames, hs, hp, hd, capturePlayer_ne_captureState, captureState_ne_capturePlayer]
      · by_cases hdied : p.action = DIED
        · by_cases hc : p.name ∈ acc.2
          · simp [stepEventP, capturePlayer_ne_captureState, captureState_ne_capturePlayer, tasksCode_ne_discussCode, exiled_ne_died, disconnected_ne_died, disconnected_ne_exiled, died_ne_exiled, exiledNames, hs, hp, hd, hdied, hc,
              show ¬DIED = EXILED by decide]
          · simp [stepEventP, capturePlayer_ne_captureState, captureState_ne_capturePlayer, tasksCode_ne_discussCode, exiled_ne_died, disconnected_ne_died, disconnected_ne_exiled, died_ne_exiled, exiledNames, hs, hp, hd, hdied, hc,
              show ¬DIED = EXILED by decide]
        · by_cases hex : p.action = EXILED
          · simp [stepEventP, capturePlayer_ne_captureState, captureState_ne_capturePlayer, tasksCode_ne_discussCode, exiled_ne_died, disconnected_ne_died, disconnected_ne_exiled, died_ne_exiled, exiledNames, hs, hp, hd, hdied, hex, capturePlayer_ne_captureState, captureState_ne_capturePlayer]
          · by_cases hdc : p.action = DISCONNECTED
            · simp [stepEventP, capturePlayer_ne_captureState, captureState_ne_capturePlayer, tasksCode_ne_discussCode, exiled_ne_died, disconnected_ne_died, disconnected_ne_exiled, died_ne_exiled, exiledNames, hs, hp, hd, hdied, hex, hdc, capturePlayer_ne_captureState, captureState_ne_capturePlayer]
            · simp [stepEventP, capturePlayer_ne_captureState, captureState_ne_capturePlayer, tasksCode_ne_discussCode, exiled_ne_died, disconnected_ne_died, disconnected_ne_exiled, died_ne_exiled, exiledNames, hs, hp, hd, hdied, hex, hdc, capturePlayer_ne_captureState, captureState_ne_capturePlayer]
    · simp [stepEventP, capturePlayer_ne_captureState, captureState_ne_capturePlayer, tasksCode_ne_discussCode, exiled_ne_died, disconnected_ne_died, disconnected_ne_exiled, died_ne_exiled, exiledNames, hs, hp, capturePlayer_ne_captureState, captureState_ne_capturePlayer]

theorem stepEventP_preserve (decode : String → Option Player) (g : PostgresGame)
    (acc : GameStatistics × List String) (v : PostgresGameEvent) :
    (stepEventP decode g acc v).1.winType = acc.1.winType ∧
    (stepEventP decode g acc v).1.winRole = acc.1.winRole ∧
    (stepEventP decode g acc v).1.winPlayerNames = acc.1.winPlayerNames ∧
    (stepEventP decode g acc v).1.losePlayerNames = acc.1.losePlayerNames ∧
    (stepEventP decode g acc v).1.gameStartTime = acc.1.gameStartTime ∧
    (stepEventP decode g acc v).1.gameEndTime = acc.1.gameEndTime ∧
    (stepEventP decode g acc v).1.gameDuration = acc.1.gameDuration := by
  by_cases hs : v.eventType = captureState
  · by_cases h1 : v.payload = DiscussCode
    · simp [stepEventP, capturePlayer_ne_captureState, captureState_ne_capturePlayer, tasksCode_ne_discussCode, exiled_ne_died, disconnected_ne_died, disconnected_ne_exiled, died_ne_exiled, hs, h1]
    · by_cases h2 : v.payload = TasksCode
      · simp [stepEventP, capturePlayer_ne_captureState, captureState_ne_capturePlayer, tasksCode_ne_discussCode, exiled_ne_died, disconnected_ne_died, disconnected_ne_exiled, died_ne_exiled, hs, h1, h2]
      · simp [stepEventP, capturePlayer_ne_captureState, captureState_ne_capturePlayer, tasksCode_ne_discussCode, exiled_ne_died, disconnected_ne_died, disconnected_ne_exiled, died_ne_exiled, hs, h1, h2]
  · by_cases hp : v.eventType = capturePlayer
    · rcases hd : decode v.payload with _ | p
      · simp [stepEventP, capturePlayer_ne_captureState, captureState_ne_capturePlayer, tasksCode_ne_discussCode, exiled_ne_died, disconnected_ne_died, disconnected_ne_exiled, died_ne_exiled, hs, hp, hd, capturePlayer_ne_captureState, captureState_ne_capturePlayer]
      · by_cases hdied : p.action = DIED
        · by_cases hc : p.name ∈ acc.2
          · simp [stepEventP, capturePlayer_ne_captureState, captureState_ne_capturePlayer, tasksCode_ne_discussCode, exiled_ne_died, disconnected_ne_died, disconnected_ne_exiled, died_ne_exiled, hs, hp, hd, hdied, hc, capturePlayer_ne_captureState, captureState_ne_capturePlayer]
          · simp [stepEventP, capturePlayer_ne_captureState, captureState_ne_capturePlayer, tasksCode_ne_discussCode, exiled_ne_died, disconnected_ne_died, disconnected_ne_exiled, died_ne_exiled, hs, hp, hd, hdied, hc, capturePlayer_ne_captureState, captureState_ne_capturePlayer]
        · by_cases hex : p.action = EXILED
          · simp [stepEventP, capturePlayer_ne_captureState, captureState_ne_capturePlayer, tasksCode_ne_discussCode, exiled_ne_died, disconnected_ne_died, disconnected_ne_exiled, died_ne_exiled, hs, hp, hd, hdied, hex, capturePlayer_ne_captureState, captureState_ne_capturePlayer]
          · by_cases hdc : p.action = DISCONNECTED
            · simp [stepEventP, capturePlayer_ne_captureState, captureState_ne_capturePlayer, tasksCode_ne_discussCode, exiled_ne_died, disconnected_ne_died, disconnected_ne_exiled, died_ne_exiled, hs, hp, hd, hdied, hex, hdc, capturePlayer_ne_captureState, captureState_ne_capturePlayer]
            · simp [stepEventP, capturePlayer_ne_captureState, captureState_ne_capturePlayer, tasksCode_ne_discussCode, exiled_ne_died, disconnected_ne_died, disconnected_ne_exiled, died_ne_exiled, hs, hp, hd, hdied, hex, hdc, capturePlayer_ne_captureState, captureState_ne_capturePlayer]
    · simp [stepEventP, capturePlayer_ne_captureState, captureState_ne_capturePlayer, tasksCode_ne_discussCode, exiled_ne_died, disconnected_ne_died, disconnected_ne_exiled, died_ne_exiled, hs, hp, capturePlayer_ne_captureState, captureState_ne_capturePlayer]

theorem stepEventP_deathCount (decode : String → Option Player) (g : PostgresGame)
    (acc : GameStatistics × List String) (v : PostgresGameEvent) :
    countEntriesOfType SimpleEventType.PlayerDeath (stepEventP decode g acc v).1.events =
      countEntriesOfType SimpleEventType.PlayerDeath acc.1.events +
        specDeathEntries decode [v] acc.2 := by
  by_cases hs : v.eventType = captureState
  · by_cases h1 : v.payload = DiscussCode
    · simp [stepEventP, capturePlayer_ne_captureState, captureState_ne_capturePlayer, tasksCode_ne_discussCode, exiled_ne_died, disconnected_ne_died, disconnected_ne_exiled, died_ne_exiled, specDeathEntries, countEntriesOfType, List.filter_append,
        hs, h1, tasksCode_ne_discussCode, capturePlayer_ne_captureState, captureState_ne_capturePlayer]
    · by_cases h2 : v.payload = TasksCode
      · simp [stepEventP, capturePlayer_ne_captureState, captureState_ne_capturePlayer, tasksCode_ne_discussCode, exiled_ne_died, disconnected_ne_died, disconnected_ne_exiled, died_ne_exiled, specDeathEntries, countEntriesOfType, List.filter_append,
          hs, h1, h2, tasksCode_ne_discussCode, capturePlayer_ne_captureState, captureState_ne_capturePlayer]
      · simp [stepEventP, capturePlayer_ne_captureState, captureState_ne_capturePlayer, tasksCode_ne_discussCode, exiled_ne_died, disconnected_ne_died, disconnected_ne_exiled, died_ne_exiled, specDeathEntries, countEntriesOfType, List.filter_append,
          hs, h1, h2, tasksCode_ne_discussCode, capturePlayer_ne_captureState, captureState_ne_capturePlayer]
  · by_cases hp : v.eventType = capturePlayer
    · rcases hd : decode v.payload with _ | p
      · simp [stepEventP, capturePlayer_ne_captureState, captureState_ne_capturePlayer, tasksCode_ne_discussCode, exiled_ne_died, disconnected_ne_died, disconnected_ne_exiled, died_ne_exiled, specDeathEntries, countEntriesOfType, hs, hp, hd, capturePlayer_ne_captureState, captureState_ne_capturePlayer]
      · by_cases hdied : p.action = DIED
        · by_cases hc : p.name ∈ acc.2
          · simp [stepEventP, capturePlayer_ne_captureState, captureState_ne_capturePlayer, tasksCode_ne_discussCode, exiled_ne_died, disconnected_ne_died, disconnected_ne_exiled, died_ne_exiled, specDeathEntries, countEntriesOfType, List.filter_append,
              hs, hp, hd, hdied, hc, capturePlayer_ne_captureState, captureState_ne_capturePlayer]
          · simp [stepEventP, capturePlayer_ne_captureState, captureState_ne_capturePlayer, tasksCode_ne_discussCode, exiled_ne_died, disconnected_ne_died, disconnected_ne_exiled, died_ne_exiled, specDeathEntries, countEntriesOfType, List.filter_append,
              hs, hp, hd, hdied, hc, capturePlayer_ne_captureState, captureState_ne_capturePlayer]
        · by_cases hex : p.action = EXILED
          · simp [stepEventP, capturePlayer_ne_captureState, captureState_ne_capturePlayer, tasksCode_ne_discussCode, exiled_ne_died, disconnected_ne_died, disconnected_ne_exiled, died_ne_exiled, specDeathEntries, countEntriesOfType, List.filter_append,
              hs, hp, hd, hdied, hex, capturePlayer_ne_captureState, captureState_ne_capturePlayer]
          · by_cases hdc : p.action = DISCONNECTED
            · simp [stepEventP, capturePlayer_ne_captureState, captureState_ne_capturePlayer, tasksCode_ne_discussCode, exiled_ne_died, disconnected_ne_died, disconnected_ne_exiled, died_ne_exiled, specDeathEntries, countEntriesOfType, List.filter_append,
                hs, hp, hd, hdied, hex, hdc, capturePlayer_ne_captureState, captureState_ne_capturePlayer]
            · simp [stepEventP, capturePlayer_ne_captureState, captureState_ne_capturePlayer, tasksCode_ne_discussCode, exiled_ne_died, disconnected_ne_died, disconnected_ne_exiled, died_ne_exiled, specDeathEntries, countEntriesOfType,
                hs, hp, hd, hdied, hex, hdc, capturePlayer_ne_captureState, captureState_ne_capturePlayer]
    · simp [stepEventP, capturePlayer_ne_captureState, captureState_ne_capturePlayer, tasksCode_ne_discussCode, exiled_ne_died, disconnected_ne_died, disconnected_ne_exiled, died_ne_exiled, specDeathEntries, countEntriesOfType, hs, hp, capturePlayer_ne_captureState, captureState_ne_capturePlayer]

theorem stepEventP_offsets (decode : String → Option Player) (g : PostgresGame)
    (acc : GameStatistics × List String) (v : PostgresGameEvent) :
    ∃ δ, (stepEventP decode g acc v).1.events = acc.1.events ++ δ ∧
      List.Sublist (δ.map (fun e => e.eventTimeOffset)) [v.eventTime - g.startTime] := by
  by_cases hs : v.eventType = captureState
  · by_cases h1 : v.payload = DiscussCode
    · refine ⟨[⟨SimpleEventType.Discuss, v.eventTime - g.startTime, ""⟩], ?_, ?_⟩
      · simp [stepEventP, hs, h1]
      · exact List.Sublist.refl _
    · by_cases h2 : v.payload = TasksCode
      · refine ⟨[⟨SimpleEventType.Tasks, v.eventTime - g.startTime, ""⟩], ?_, ?_⟩
        · simp [stepEventP, hs, h1, h2, tasksCode_ne_discussCode]
        · exact List.Sublist.refl _
      · exact ⟨[], by simp [stepEventP, hs, h1, h2], List.nil_sublist _⟩
  · by_cases hp : v.eventType = capturePlayer
    · rcases hd : decode v.payload with _ | p
      · exact ⟨[], by simp [stepEventP, hs, hp, hd, captureState_ne_capturePlayer,
          capturePlayer_ne_captureState], List.nil_sublist _⟩
      · by_cases hdied : p.action = DIED
        · by_cases hc : p.name ∈ acc.2
          · exact ⟨[], by simp [stepEventP, hs, hp, hd, hdied, hc,
              capturePlayer_ne_captureState], List.nil_sublist _⟩
          · refine ⟨[⟨SimpleEventType.PlayerDeath, v.eventTime - g.startTime, v.payload⟩], ?_, ?_⟩
            · simp [stepEventP, hs, hp, hd, hdied, hc, capturePlayer_ne_captureState]
            · exact List.Sublist.refl _
        · by_cases hex : p.action = EXILED
          · refine ⟨[⟨SimpleEventType.PlayerExiled, v.eventTime - g.startTime, v.payload⟩], ?_, ?_⟩
            · simp [stepEventP, hs, hp, hd, hdied, hex, exiled_ne_died,
                capturePlayer_ne_captureState]
            · exact List.Sublist.refl _
          · by_cases hdc : p.action = DISCONNECTED
            · refine ⟨[⟨SimpleEventType.PlayerDisconnect, v.eventTime - g.startTime, v.payload⟩],
                ?_, ?_⟩
              · simp [stepEventP, hs, hp, hd, hdied, hex, hdc, disconnected_ne_died,
                  disconnected_ne_exiled, capturePlayer_ne_captureState]
              · exact List.Sublist.refl _
            · exact ⟨[], by simp [stepEventP, hs, hp, hd, hdied, hex, hdc,
                capturePlayer_ne_captureState], List.nil_sublist _⟩
    · exact ⟨[], by simp [stepEventP, hs, hp], List.nil_sublist _⟩

theorem stepEventP_deathsFor (decode : String → Option Player) (g : PostgresGame)
    (acc : GameStatistics × List String) (v : PostgresGameEvent) (n : String)
    (hc : n ∉ acc.2) :
    countDeathEntriesFor decode n (stepEventP decode g acc v).1.events =
      countDeathEntriesFor decode n acc.1.events + countDiedFor decode n [v] := by
  by_cases hs : v.eventType = captureState
  · by_cases h1 : v.payload = DiscussCode
    · simp [stepEventP, countDeathEntriesFor, countDiedFor, diedParsed, List.filter_append,
        hs, h1, captureState_ne_capturePlayer]
    · by_cases h2 : v.payload = TasksCode
      · simp [stepEventP, countDeathEntriesFor, countDiedFor, diedParsed, List.filter_append,
          hs, h1, h2, captureState_ne_capturePlayer, tasksCode_ne_discussCode]
      · simp [stepEventP, countDeathEntriesFor, countDiedFor, diedParsed,
          hs, h1, h2, captureState_ne_capturePlayer]
  · by_cases hp : v.eventType = capturePlayer
    · rcases hd : decode v.payload with _ | p
      · simp [stepEventP, countDeathEntriesFor, countDiedFor, diedParsed,
          hs, hp, hd, capturePlayer_ne_captureState]
      · by_cases hdied : p.action = DIED
        · by_cases hn : p.name = n
          · simp [stepEventP, countDeathEntriesFor, countDiedFor, diedParsed, nameDecodes,
              List.filter_append, hs, hp, hd, hdied, hn, hc, capturePlayer_ne_captureState]
          · by_cases hmem : p.name ∈ acc.2
            · simp [stepEventP, countDeathEntriesFor, countDiedFor, diedParsed, nameDecodes,
                hs, hp, hd, hdied, hn, hmem, capturePlayer_ne_captureState]
            · simp [stepEventP, countDeathEntriesFor, countDiedFor, diedParsed, nameDecodes,
                List.filter_append, hs, hp, hd, hdied, hn, hmem, capturePlayer_ne_captureState]
        · by_cases hex : p.action = EXILED
          · simp [stepEventP, countDeathEntriesFor, countDiedFor, diedParsed, nameDecodes,
              List.filter_append, hs, hp, hd, hdied, hex, exiled_ne_died,
              capturePlayer_ne_captureState]
          · by_cases hdc : p.action = DISCONNECTED
            · simp [stepEventP, countDeathEntriesFor, countDiedFor, diedParsed, nameDecodes,
                List.filter_append, hs, hp, hd, hdied, hex, hdc, disconnected_ne_died,
                disconnected_ne_exiled, capturePlayer_ne_captureState]
            · simp [stepEventP, countDeathEntriesFor, countDiedFor, diedParsed,
                hs, hp, hd, hdied, hex, hdc, capturePlayer_ne_captureState]
    · simp [stepEventP, countDeathEntriesFor, countDiedFor, diedParsed, hs, hp]

theorem specDeathEntries_single_le (decode : String → Option Player)
    (v : PostgresGameEvent) (ex : List String) :
    specDeathEntries decode [v] ex ≤ (if diedParsed decode v then 1 else 0) := by
  by_cases hp : v.eventType = capturePlayer
  · rcases hd : decode v.payload with _ | p
    · simp [specDeathEntries, diedParsed, hp, hd]
    · by_cases hdied : p.action = DIED
      · by_cases hc : p.name ∈ ex
        · simp [specDeathEntries, diedParsed, hp, hd, hdied, hc]
        · simp [specDeathEntries, diedParsed, hp, hd, hdied, hc]
      · by_cases hex : p.action = EXILED
        · simp [specDeathEntries, diedParsed, hp, hd, hdied, hex, exiled_ne_died]
        · simp [specDeathEntries, diedParsed, hp, hd, hdied, hex]
  · simp [specDeathEntries, diedParsed, hp]

theorem specDeathEntries_le_countDied (decode : String → Option Player) :
    ∀ (evs : List PostgresGameEvent) (ex : List String),
      specDeathEntries decode evs ex ≤ countDied decode evs := by
  intro evs
  induction evs with
  | nil => intro ex; simp [specDeathEntries, countDied]
  | cons v rest ih =>
      intro ex
      rw [specDeathEntries_cons, countDied_cons]
      exact Nat.add_le_add (specDeathEntries_single_le decode v ex) (ih _)

theorem processEventsP_numDeaths (decode : String → Option Player) (g : PostgresGame) :
    ∀ (evs : List PostgresGameEvent) (acc : GameStatistics × List String),
      (processEventsP decode g evs acc).1.numDeaths =
        acc.1.numDeaths + countDied decode evs := by
  intro evs
  induction evs with
  | nil => intro acc; simp [processEventsP, countDied]
  | cons v rest ih =>
      intro acc
      rw [show processEventsP decode g (v :: rest) acc =
            processEventsP decode g rest (stepEventP decode g acc v) from rfl,
          ih, stepEventP_numDeaths, countDied_cons]
      omega

theorem processEventsP_snd (decode : String → Option Player) (g : PostgresGame) :
    ∀ (evs : List PostgresGameEvent) (acc : GameStatistics × List String),
      (processEventsP decode g evs acc).2 = acc.2 ++ exiledNames decode evs := by
  intro evs
  induction evs with
  | nil => intro acc; simp [processEventsP, exiledNames]
  | cons v rest ih =>
      intro acc
      rw [show processEventsP decode g (v :: rest) acc =
            processEventsP decode g rest (stepEventP decode g acc v) from rfl,
          ih, stepEventP_snd, exiledNames_cons decode v rest, List.append_assoc]

theorem processEventsP_preserve (decode : String → Option Player) (g : PostgresGame) :
    ∀ (evs : List PostgresGameEvent) (acc : GameStatistics × List String),
      (processEventsP decode g evs acc).1.winType = acc.1.winType ∧
      (processEventsP decode g evs acc).1.winRole = acc.1.winRole ∧
      (processEventsP decode g evs acc).1.winPlayerNames = acc.1.winPlayerNames ∧
      (processEventsP decode g evs acc).1.losePlayerNames = acc.1.losePlayerNames ∧
      (processEventsP decode g evs acc).1.gameStartTime = acc.1.gameStartTime ∧
      (processEventsP decode g evs acc).1.gameEndTime = acc.1.gameEndTime ∧
      (processEventsP decode g evs acc).1.gameDuration = acc.1.gameDuration := by
  intro evs
  induction evs with
  | nil =>
      intro acc
      exact ⟨rfl, rfl, rfl, rfl, rfl, rfl, rfl⟩
  | cons v rest ih =>
      intro acc
      obtain ⟨a1, a2, a3, a4, a5, a6, a7⟩ := stepEventP_preserve decode g acc v
      obtain ⟨b1, b2, b3, b4, b5, b6, b7⟩ := ih (stepEventP decode g acc v)
      exact ⟨b1.trans a1, b2.trans a2, b3.trans a3, b4.trans a4,
        b5.trans a5, b6.trans a6, b7.trans a7⟩

theorem processEventsP_deathCount (decode : String → Option Player) (g : PostgresGame) :
    ∀ (evs : List PostgresGameEvent) (acc : GameStatistics × List String),
      countEntriesOfType SimpleEventType.PlayerDeath (processEventsP decode g evs acc).1.events =
        countEntriesOfType SimpleEventType.PlayerDeath acc.1.events +
          specDeathEntries decode evs acc.2 := by
  intro evs
  induction evs with
  | nil => intro acc; simp [processEventsP, specDeathEntries]
  | cons v rest ih =>
      intro acc
      rw [show processEventsP decode g (v :: rest) acc =
            processEventsP decode g rest (stepEventP decode g acc v) from rfl,
          ih, stepEventP_deathCount, stepEventP_snd,
          specDeathEntries_cons decode v rest, Nat.add_assoc]

theorem processEventsP_offsets (decode : String → Option Player) (g : PostgresGame) :
    ∀ (evs : List PostgresGameEvent) (acc : GameStatistics × List String),
      ∃ δ, (processEventsP decode g evs acc).1.events = acc.1.events ++ δ ∧
        List.Sublist (δ.map (fun e => e.eventTimeOffset))
          (evs.map (fun v => v.eventTime - g.startTime)) := by
  intro evs
  induction evs with
  | nil =>
      intro acc
      exact ⟨[], by simp [processEventsP], List.nil_sublist _⟩
  | cons v rest ih =>
      intro acc
      obtain ⟨δ1, h1, s1⟩ := stepEventP_offsets decode g acc v
      obtain ⟨δ2, h2, s2⟩ := ih (stepEventP decode g acc v)
      refine ⟨δ1 ++ δ2, ?_, ?_⟩
      · rw [show processEventsP decode g (v :: rest) acc =
              processEventsP decode g rest (stepEventP decode g acc v) from rfl,
            h2, h1, List.append_assoc]
      · rw [List.map_append, List.map_cons]
        exact (s1.append s2).trans (by simp)

theorem processEventsP_deathsFor (decode : String → Option Player) (g : PostgresGame)
    (n : String) :
    ∀ (evs : List PostgresGameEvent) (acc : GameStatistics × List String),
      hasExiledFor decode n evs = false → n ∉ acc.2 →
      countDeathEntriesFor decode n (processEventsP decode g evs acc).1.events =
        countDeathEntriesFor decode n acc.1.events + countDiedFor decode n evs := by
  intro evs
  induction evs with
  | nil => intro acc _ _; simp [processEventsP, countDiedFor]
  | cons v rest ih =>
      intro acc hex hmem
      rw [hasExiledFor_cons, Bool.or_eq_false_iff] at hex
      have hmem2 : n ∉ (stepEventP decode g acc v).2 := by
        rw [stepEventP_snd]
        intro hin
        rcases List.mem_append.mp hin with h | h
        · exact hmem h
        · have : (exiledNames decode [v]).contains n = true :=
            List.elem_eq_true_of_mem h
          rw [exiledNames_contains] at this
          rw [this] at hex
          exact Bool.noConfusion hex.1
      rw [show processEventsP decode g (v :: rest) acc =
            processEventsP decode g rest (stepEventP decode g acc v) from rfl,
          ih _ hex.2 hmem2, stepEventP_deathsFor decode g acc v n hmem,
          countDiedFor_cons decode n v rest, Nat.add_assoc]

theorem foldl_addUserName_win :
    ∀ (users : List PostgresUserGame) (s : GameStatistics),
      (users.foldl addUserName s).winPlayerNames =
        s.winPlayerNames ++ (users.filter (fun u => u.playerWon)).map (fun u => u.playerName) := by
  intro users
  induction users with
  | nil => intro s; simp
  | cons u rest ih =>
      intro s
      rw [List.foldl_cons, ih]
      by_cases h : u.playerWon <;>
        simp [addUserName, h, List.filter_cons]

theorem foldl_addUserName_lose :
    ∀ (users : List PostgresUserGame) (s : GameStatistics),
      (users.foldl addUserName s).losePlayerNames =
        s.losePlayerNames ++ (users.filter (fun u => !u.playerWon)).map (fun u => u.playerName) := by
  intro users
  induction users with
  | nil => intro s; simp
  | cons u rest ih =>
      intro s
      rw [List.foldl_cons, ih]
      by_cases h : u.playerWon <;>
        simp [addUserName, h, List.filter_cons]

theorem foldl_addUserName_preserve :
    ∀ (users : List PostgresUserGame) (s : GameStatistics),
      (users.foldl addUserName s).winType = s.winType ∧
      (users.foldl addUserName s).winRole = s.winRole ∧
      (users.foldl addUserName s).gameStartTime = s.gameStartTime ∧
      (users.foldl addUserName s).gameEndTime = s.gameEndTime ∧
      (users.foldl addUserName s).gameDuration = s.gameDuration ∧
      (users.foldl addUserName s).numMeetings = s.numMeetings ∧
      (users.foldl addUserName s).numDeaths = s.numDeaths ∧
      (users.foldl addUserName s).numVotedOff = s.numVotedOff ∧
      (users.foldl addUserName s).numDisconnects = s.numDisconnects ∧
      (users.foldl addUserName s).events = s.events := by
  intro users
  induction users with
  | nil => intro s; exact ⟨rfl, rfl, rfl, rfl, rfl, rfl, rfl, rfl, rfl, rfl⟩
  | cons u rest ih =>
      intro s
      obtain ⟨b1, b2, b3, b4, b5, b6, b7, b8, b9, b10⟩ := ih (addUserName s u)
      rw [List.foldl_cons]
      by_cases h : u.playerWon <;>
        simp_all [addUserName, h]

theorem preStats_winPlayerNames (pgame : Option PostgresGame)
    (users : List PostgresUserGame) :
    (preStats pgame users).winPlayerNames =
      (users.filter (fun u => u.playerWon)).map (fun u => u.playerName) := by
  have h := foldl_addUserName_win users (statsWithRole pgame)
  have hz : (statsWithRole pgame).winPlayerNames = [] := by
    cases pgame <;> simp [statsWithRole, statsOfGame, baseStats] <;> split <;> rfl
  rw [preStats, h, hz, List.nil_append]

theorem preStats_losePlayerNames (pgame : Option PostgresGame)
    (users : List PostgresUserGame) :
    (preStats pgame users).losePlayerNames =
      (users.filter (fun u => !u.playerWon)).map (fun u => u.playerName) := by
  have h := foldl_addUserName_lose users (statsWithRole pgame)
  have hz : (statsWithRole pgame).losePlayerNames = [] := by
    cases pgame <;> simp [statsWithRole, statsOfGame, baseStats] <;> split <;> rfl
  rw [preStats, h, hz, List.nil_append]

theorem preStats_counters (pgame : Option PostgresGame)
    (users : List PostgresUserGame) :
    (preStats pgame users).numMeetings = 0 ∧
    (preStats pgame users).numDeaths = 0 ∧
    (preStats pgame users).numVotedOff = 0 ∧
    (preStats pgame users).numDisconnects = 0 ∧
    (preStats pgame users).events = [] := by
  obtain ⟨_, _, _, _, _, h6, h7, h8, h9, h10⟩ :=
    foldl_addUserName_preserve users (statsWithRole pgame)
  have hz : (statsWithRole pgame).numMeetings = 0 ∧
      (statsWithRole pgame).numDeaths = 0 ∧
      (statsWithRole pgame).numVotedOff = 0 ∧
      (statsWithRole pgame).numDisconnects = 0 ∧
      (statsWithRole pgame).events = [] := by
    cases pgame <;> simp [statsWithRole, statsOfGame, baseStats] <;> split <;>
      exact ⟨rfl, rfl, rfl, rfl, rfl⟩
  exact ⟨h6.trans hz.1, h7.trans hz.2.1, h8.trans hz.2.2.1,
    h9.trans hz.2.2.2.1, h10.trans hz.2.2.2.2⟩

theorem preStats_winType_some (g : PostgresGame) (users : List PostgresUserGame) :
    (preStats (some g) users).winType = g.winType := by
  obtain ⟨h1, _⟩ := foldl_addUserName_preserve users (statsWithRole (some g))
  have hz : (statsWithRole (some g)).winType = g.winType := by
    simp [statsWithRole, statsOfGame, baseStats]
    split <;> rfl
  exact h1.trans hz

theorem preStats_winRole_some (g : PostgresGame) (users : List PostgresUserGame) :
    (preStats (some g) users).winRole =
      if g.winType = ImpostorDisconnect ∨ g.winType = ImpostorBySabotage
          ∨ g.winType = ImpostorByVote ∨ g.winType = ImpostorByKill then
        ImposterRole
      else CrewmateRole := by
  obtain ⟨_, h2, _⟩ := foldl_addUserName_preserve users (statsWithRole (some g))
  refine h2.trans ?_
  by_cases hc : g.winType = ImpostorDisconnect ∨ g.winType = ImpostorBySabotage
      ∨ g.winType = ImpostorByVote ∨ g.winType = ImpostorByKill
  · rw [if_pos hc]
    simp only [statsWithRole, statsOfGame, baseStats]
    rcases hc with h | h | h | h <;> simp [h]
  · rw [if_neg hc]
    push_neg at hc
    obtain ⟨n1, n2, n3, n4⟩ := hc
    simp only [statsWithRole, statsOfGame, baseStats]
    simp [n1, n2, n3, n4]

theorem statsFGE_short (decode : String → Option Player)
    (pgame : Option PostgresGame) (evs : List PostgresGameEvent)
    (users : List PostgresUserGame) (h : evs.length < 2) :
    StatsFromGameAndEvents decode pgame evs users = some (preStats pgame users) := by
  unfold StatsFromGameAndEvents
  rw [if_pos h]

theorem statsFGE_long (decode : String → Option Player) (g : PostgresGame)
    (evs : List PostgresGameEvent) (users : List PostgresUserGame)
    (h : ¬evs.length < 2) :
    StatsFromGameAndEvents decode (some g) evs users =
      some (processEventsP decode g evs (preStats (some g) users, [])).1 := by
  unfold StatsFromGameAndEvents
  rw [if_neg h, processEvents_some]
  rfl

theorem statsFGE_eq (decode : String → Option Player) (g : PostgresGame)
    (evs : List PostgresGameEvent) (users : List PostgresUserGame)
    (stats : GameStatistics)
    (h : StatsFromGameAndEvents decode (some g) evs users = some stats) :
    stats = if evs.length < 2 then preStats (some g) users
            else (processEventsP decode g evs (preStats (some g) users, [])).1 := by
  by_cases hl : evs.length < 2
  · rw [statsFGE_short decode (some g) evs users hl] at h
    rw [if_pos hl]
    exact (Option.some_inj.mp h).symm
  · rw [statsFGE_long decode g evs users hl] at h
    rw [if_neg hl]
    exact (Option.some_inj.mp h).symm

theorem statsFGE_win_fields (decode : String → Option Player) (g : PostgresGame)
    (evs : List PostgresGameEvent) (users : List PostgresUserGame)
    (stats : GameStatistics)
    (h : StatsFromGameAndEvents decode (some g) evs users = some stats) :
    stats.winType = g.winType ∧
    stats.winRole = (preStats (some g) users).winRole := by
  have he := statsFGE_eq decode g evs users stats h
  by_cases hl : evs.length < 2
  · rw [if_pos hl] at he
    subst he
    exact ⟨preStats_winType_some g users, rfl⟩
  · rw [if_neg hl] at he
    subst he
    obtain ⟨p1, p2, _⟩ :=
      processEventsP_preserve decode g evs (preStats (some g) users, [])
    exact ⟨p1.trans (preStats_winType_some g users), p2⟩

/-- A concrete payload decoder used as a test fixture for the witnesses:
it recognises a handful of literal payload strings. -/
def sampleDecode : String → Option Player := fun s =>
  if s = "died:Alice" then some ⟨DIED, "Alice"⟩
  else if s = "died:Bob" then some ⟨DIED, "Bob"⟩
  else if s = "exiled:Alice" then some ⟨EXILED, "Alice"⟩
  else if s = "disc:Alice" then some ⟨DISCONNECTED, "Alice"⟩
  else none

/-- A concrete match record fixture (start 1000, end 1100, win code 1). -/
def gA : PostgresGame := ⟨7, 1, "cc", 1000, 1, 1100⟩

/-- A concrete match record with an out-of-range win code 42. -/
def g42 : PostgresGame := ⟨8, 1, "cc", 1000, 42, 1100⟩

/-- A phase-state event fixture at time `t`. -/
def evState (t : Int) (p : String) : PostgresGameEvent :=
  ⟨0, none, 7, t, captureState, p⟩

/-- A player-action event fixture at time `t`. -/
def evPlayer (t : Int) (p : String) : PostgresGameEvent :=
  ⟨0, none, 7, t, capturePlayer, p⟩

/-- An outcome-record fixture: Alice lost. -/
def uAlice : PostgresUserGame := ⟨"u1", 1, 7, "Alice", 0, 0, false⟩

/-- An outcome-record fixture: Bob won. -/
def uBob : PostgresUserGame := ⟨"u2", 1, 7, "Bob", 1, 0, true⟩

/-- C1 (amended to event sequences with at least 2 entries, which is forced
by the short-input early return): the death counter equals the number of
player-action events whose payload decodes to `Died`, independent of
suppression; a `PlayerDeath` timeline entry is produced exactly as the
spec-side scan `specDeathEntries` dictates (appended iff the name is not
yet in the eliminated set at that point); and the `PlayerDeath` entry count
is at most the death counter. -/
theorem c1_death_counter (decode : String → Option Player) (g : PostgresGame)
    (evs : List PostgresGameEvent) (users : List PostgresUserGame)
    (stats : GameStatistics) (hlen : 2 ≤ evs.length)
    (h : StatsFromGameAndEvents decode (some g) evs users = some stats) :
    stats.numDeaths = countDied decode evs ∧
    countEntriesOfType SimpleEventType.PlayerDeath stats.events =
      specDeathEntries decode evs [] ∧
    specDeathEntries decode evs [] ≤ countDied decode evs := by
  have hl : ¬evs.length < 2 := by omega
  have he := statsFGE_eq decode g evs users stats h
  rw [if_neg hl] at he
  subst he
  obtain ⟨_, hd, _, _, hev⟩ := preStats_counters (some g) users
  refine ⟨?_, ?_, specDeathEntries_le_countDied decode evs []⟩
  · rw [processEventsP_numDeaths]
    simp [hd]
  · rw [processEventsP_deathCount]
    simp [hev, countEntriesOfType]

/-- C1 counterexample to the unrestricted claim: a single `Died` event is
discarded by the short-input early return, so the death counter is 0 while
one `Died` action decodes successfully. -/
theorem c1_counterexample :
    (StatsFromGameAndEvents sampleDecode (some gA)
        [evPlayer 1020 "died:Alice"] []).map (fun s => s.numDeaths) = some 0 ∧
    countDied sampleDecode [evPlayer 1020 "died:Alice"] = 1 := by
  exact ⟨rfl, rfl⟩

/-- C1 witness: the theorem applied at a concrete two-event input
(an `Exiled` for Alice followed by a `Died` for Alice). -/
def c1evs : List PostgresGameEvent :=
  [evPlayer 1020 "exiled:Alice", evPlayer 1030 "died:Alice"]

/-- The concrete statistics the reducer produces on `c1evs`. -/
def c1stats : GameStatistics :=
  (processEventsP sampleDecode gA c1evs (preStats (some gA) [], [])).1

/-- C1 witness (see `c1_death_counter`). -/
theorem c1_death_counter_witness :
    2 ≤ c1evs.length ∧
    (c1stats.numDeaths = countDied sampleDecode c1evs ∧
     countEntriesOfType SimpleEventType.PlayerDeath c1stats.events =
       specDeathEntries sampleDecode c1evs [] ∧
     specDeathEntries sampleDecode c1evs [] ≤ countDied sampleDecode c1evs) :=
  ⟨by decide, c1_death_counter sampleDecode gA c1evs [] c1stats (by decide) rfl⟩

/-- C2: the spec's totality statement is right about the intent but the
code dereferences the absent match record inside the event loop: with two
phase-state discussion events and no match, the reduction panics (modelled
`none`), while with fewer than two events the documented defaults and the
winner/loser partition do hold. -/
theorem c2_nil_match :
    StatsFromGameAndEvents sampleDecode none
        [evState 1010 DiscussCode, evState 1020 DiscussCode] [] = none ∧
    StatsFromGameAndEvents sampleDecode none [] [uAlice, uBob] =
      some { gameStartTime := 0, gameEndTime := 0, gameDuration := 0,
             winType := Unknown, winRole := CrewmateRole,
             winPlayerNames := ["Bob"], losePlayerNames := ["Alice"],
             numMeetings := 0, numDeaths := 0, numVotedOff := 0,
             numDisconnects := 0, events := [] } := by
  exact ⟨rfl, rfl⟩

/-- C3: with fewer than 2 events the reducer returns immediately: the
timeline is empty, all four counters are zero, and the winner/loser
partition is still performed. -/
theorem c3_short_input (decode : String → Option Player)
    (pgame : Option PostgresGame) (evs : List PostgresGameEvent)
    (users : List PostgresUserGame) (h : evs.length < 2) :
    StatsFromGameAndEvents decode pgame evs users = some (preStats pgame users) ∧
    (preStats pgame users).events = [] ∧
    (preStats pgame users).numMeetings = 0 ∧
    (preStats pgame users).numDeaths = 0 ∧
    (preStats pgame users).numVotedOff = 0 ∧
    (preStats pgame users).numDisconnects = 0 ∧
    (preStats pgame users).winPlayerNames =
      (users.filter (fun u => u.playerWon)).map (fun u => u.playerName) ∧
    (preStats pgame users).losePlayerNames =
      (users.filter (fun u => !u.playerWon)).map (fun u => u.playerName) := by
  obtain ⟨hm, hd, hv, hdc, hev⟩ := preStats_counters pgame users
  exact ⟨statsFGE_short decode pgame evs users h, hev, hm, hd, hv, hdc,
    preStats_winPlayerNames pgame users, preStats_losePlayerNames pgame users⟩

/-- C3 witness (see `c3_short_input`): a single-event input. -/
theorem c3_short_input_witness :
    StatsFromGameAndEvents sampleDecode (some gA) [evPlayer 1020 "died:Alice"]
        [uAlice, uBob] = some (preStats (some gA) [uAlice, uBob]) ∧
    (preStats (some gA) [uAlice, uBob]).events = [] ∧
    (preStats (some gA) [uAlice, uBob]).numMeetings = 0 ∧
    (preStats (some gA) [uAlice, uBob]).numDeaths = 0 ∧
    (preStats (some gA) [uAlice, uBob]).numVotedOff = 0 ∧
    (preStats (some gA) [uAlice, uBob]).numDisconnects = 0 ∧
    (preStats (some gA) [uAlice, uBob]).winPlayerNames =
      (([uAlice, uBob].filter (fun u => u.playerWon)).map (fun u => u.playerName)) ∧
    (preStats (some gA) [uAlice, uBob]).losePlayerNames =
      (([uAlice, uBob].filter (fun u => !u.playerWon)).map (fun u => u.playerName)) :=
  c3_short_input sampleDecode (some gA) [evPlayer 1020 "died:Alice"]
    [uAlice, uBob] (by decide)

/-- C4: the winner and loser name lists exactly partition the outcome
records by win flag, preserving relative input order. -/
theorem c4_partition (decode : String → Option Player) (g : PostgresGame)
    (evs : List PostgresGameEvent) (users : List PostgresUserGame)
    (stats : GameStatistics)
    (h : StatsFromGameAndEvents decode (some g) evs users = some stats) :
    stats.winPlayerNames =
      (users.filter (fun u => u.playerWon)).map (fun u => u.playerName) ∧
    stats.losePlayerNames =
      (users.filter (fun u => !u.playerWon)).map (fun u => u.playerName) := by
  have he := statsFGE_eq decode g evs users stats h
  by_cases hl : evs.length < 2
  · rw [if_pos hl] at he
    subst he
    exact ⟨preStats_winPlayerNames _ _, preStats_losePlayerNames _ _⟩
  · rw [if_neg hl] at he
    subst he
    obtain ⟨_, _, p3, p4, _⟩ :=
      processEventsP_preserve decode g evs (preStats (some g) users, [])
    exact ⟨p3.trans (preStats_winPlayerNames _ _),
      p4.trans (preStats_losePlayerNames _ _)⟩

/-- C4 witness: a two-event reduction over a two-record outcome set. -/
def c4stats : GameStatistics :=
  (processEventsP sampleDecode gA c1evs (preStats (some gA) [uAlice, uBob], [])).1

/-- C4 witness (see `c4_partition`). -/
theorem c4_partition_witness :
    c4stats.winPlayerNames =
      (([uAlice, uBob].filter (fun u => u.playerWon)).map (fun u => u.playerName)) ∧
    c4stats.losePlayerNames =
      (([uAlice, uBob].filter (fun u => !u.playerWon)).map (fun u => u.playerName)) :=
  c4_partition sampleDecode gA c1evs [uAlice, uBob] c4stats rfl

/-- C5: a phase-state event whose payload is the discussion code increments
the meeting counter and appends a `Discuss` entry; the tasks code appends a
`Tasks` entry and changes no counter; any other payload leaves the whole
state unchanged. -/
theorem c5_phase_state (decode : String → Option Player) (g : PostgresGame)
    (acc : GameStatistics × List String) (v : PostgresGameEvent)
    (hs : v.eventType = captureState) :
    (v.payload = DiscussCode →
      stepEvent decode (some g) acc v =
        some ({ acc.1 with
                  numMeetings := acc.1.numMeetings + 1,
                  events := acc.1.events ++
                    [⟨SimpleEventType.Discuss, v.eventTime - g.startTime, ""⟩] },
              acc.2)) ∧
    (v.payload = TasksCode →
      stepEvent decode (some g) acc v =
        some ({ acc.1 with
                  events := acc.1.events ++
                    [⟨SimpleEventType.Tasks, v.eventTime - g.startTime, ""⟩] },
              acc.2)) ∧
    (¬v.payload = DiscussCode → ¬v.payload = TasksCode →
      stepEvent decode (some g) acc v = some acc) := by
  rw [stepEvent_some]
  refine ⟨?_, ?_, ?_⟩
  · intro h1
    simp [stepEventP, hs, h1]
  · intro h2
    simp [stepEventP, hs, h2, tasksCode_ne_discussCode]
  · intro h1 h2
    simp [stepEventP, hs, h1, h2]

/-- C5 witness (see `c5_phase_state`): a concrete discussion event. -/
theorem c5_phase_state_witness :
    stepEvent sampleDecode (some gA) (baseStats, []) (evState 1010 DiscussCode) =
      some ({ baseStats with
                numMeetings := baseStats.numMeetings + 1,
                events := baseStats.events ++
                  [⟨SimpleEventType.Discuss,
                    (evState 1010 DiscussCode).eventTime - gA.startTime, ""⟩] },
            []) :=
  (c5_phase_state sampleDecode gA (baseStats, []) (evState 1010 DiscussCode) rfl).1 rfl

/-- C6: every timeline entry's offset equals its originating event's
timestamp minus the match start (the offsets form a sublist of the
per-event offsets, in scan order), and ascending input timestamps give
monotonically non-decreasing timeline offsets. -/
theorem c6_offsets (decode : String → Option Player) (g : PostgresGame)
    (evs : List PostgresGameEvent) (users : List PostgresUserGame)
    (stats : GameStatistics)
    (h : StatsFromGameAndEvents decode (some g) evs users = some stats) :
    List.Sublist (stats.events.map (fun e => e.eventTimeOffset))
      (evs.map (fun v => v.eventTime - g.startTime)) ∧
    ((evs.map (fun v => v.eventTime)).Pairwise (fun a b => a ≤ b) →
      (stats.events.map (fun e => e.eventTimeOffset)).Pairwise (fun a b => a ≤ b)) := by
  have he := statsFGE_eq decode g evs users stats h
  have key : List.Sublist (stats.events.map (fun e => e.eventTimeOffset))
      (evs.map (fun v => v.eventTime - g.startTime)) := by
    by_cases hl : evs.length < 2
    · rw [if_pos hl] at he
      subst he
      rw [(preStats_counters (some g) users).2.2.2.2]
      exact List.nil_sublist _
    · rw [if_neg hl] at he
      subst he
      obtain ⟨δ, hδ, hsub⟩ :=
        processEventsP_offsets decode g evs (preStats (some g) users, [])
      rw [hδ, (preStats_counters (some g) users).2.2.2.2, List.nil_append]
      exact hsub
  refine ⟨key, fun hp => ?_⟩
  have h2 : (evs.map (fun v => v.eventTime - g.startTime)).Pairwise
      (fun a b => a ≤ b) := by
    rw [List.pairwise_map] at hp ⊢
    exact hp.imp (fun hab => by omega)
  exact h2.sublist key

/-- C6 witness (see `c6_offsets`): a concrete ascending two-event input. -/
def c6evs : List PostgresGameEvent :=
  [evState 1010 DiscussCode, evPlayer 1020 "died:Alice"]

/-- The concrete statistics the reducer produces on `c6evs`. -/
def c6stats : GameStatistics :=
  (processEventsP sampleDecode gA c6evs (preStats (some gA) [], [])).1

/-- C6 witness (see `c6_offsets`). -/
theorem c6_offsets_witness :
    List.Sublist (c6stats.events.map (fun e => e.eventTimeOffset))
      (c6evs.map (fun v => v.eventTime - gA.startTime)) ∧
    (c6stats.events.map (fun e => e.eventTimeOffset)).Pairwise (fun a b => a ≤ b) :=
  ⟨(c6_offsets sampleDecode gA c6evs [] c6stats rfl).1,
   (c6_offsets sampleDecode gA c6evs [] c6stats rfl).2 (by decide)⟩

/-- C7: the win-condition-to-faction mapping is total and stable: codes
0, 1, 6 give the Crewmate role, codes 2, 3, 4, 5 give the Imposter role,
and an `Unknown` recorded win condition defaults to the Crewmate role. -/
theorem c7_faction (decode : String → Option Player) (g : PostgresGame)
    (evs : List PostgresGameEvent) (users : List PostgresUserGame)
    (stats : GameStatistics)
    (h : StatsFromGameAndEvents decode (some g) evs users = some stats) :
    ((g.winType = 0 ∨ g.winType = 1 ∨ g.winType = 6) →
      stats.winRole = CrewmateRole) ∧
    ((g.winType = 2 ∨ g.winType = 3 ∨ g.winType = 4 ∨ g.winType = 5) →
      stats.winRole = ImposterRole) ∧
    (stats.winType = Unknown → stats.winRole = CrewmateRole) := by
  obtain ⟨ht, hr⟩ := statsFGE_win_fields decode g evs users stats h
  rw [hr, preStats_winRole_some]
  refine ⟨?_, ?_, ?_⟩
  · rintro (h0 | h0 | h0) <;>
      simp [h0, ImpostorDisconnect, ImpostorBySabotage, ImpostorByVote, ImpostorByKill]
  · rintro (h0 | h0 | h0 | h0) <;>
      simp [h0, ImpostorDisconnect, ImpostorBySabotage, ImpostorByVote, ImpostorByKill]
  · intro hu
    rw [ht] at hu
    simp [hu, Unknown, ImpostorDisconnect, ImpostorBySabotage, ImpostorByVote,
      ImpostorByKill]

/-- C7 witness stats: `gA` has win code 1. -/
def c7stats : GameStatistics := preStats (some gA) []

/-- C7 witness (see `c7_faction`). -/
theorem c7_faction_witness : c7stats.winRole = CrewmateRole :=
  (c7_faction sampleDecode gA [] [] c7stats rfl).1 (Or.inr (Or.inl rfl))

/-- C8 (amended): the reducer records the raw win-condition code verbatim
(the Go code casts the integer without range checking), so an out-of-range
code is recorded as itself and equals `Unknown` only when the code is
exactly 7 — not for every out-of-range code as claimed. -/
theorem c8_raw_code (decode : String → Option Player) (g : PostgresGame)
    (evs : List PostgresGameEvent) (users : List PostgresUserGame)
    (stats : GameStatistics)
    (h : StatsFromGameAndEvents decode (some g) evs users = some stats) :
    stats.winType = g.winType ∧
    ((g.winType < 0 ∨ 6 < g.winType) → (stats.winType = Unknown ↔ g.winType = 7)) := by
  obtain ⟨ht, _⟩ := statsFGE_win_fields decode g evs users stats h
  exact ⟨ht, fun _ => by rw [ht]; exact Iff.rfl⟩

/-- C8 counterexample: win code 42 is outside 0-6, but the recorded win
condition is 42, not `Unknown` (= 7). -/
theorem c8_counterexample :
    (StatsFromGameAndEvents sampleDecode (some g42) [] []).map (fun s => s.winType) =
      some 42 ∧ ¬(42 : Int) = Unknown := by
  exact ⟨rfl, by decide⟩

/-- C8 witness stats: the reduction of `g42`. -/
def c8stats : GameStatistics := preStats (some g42) []

/-- C8 witness (see `c8_raw_code`). -/
theorem c8_raw_code_witness :
    c8stats.winType = g42.winType ∧ (c8stats.winType = Unknown ↔ g42.winType = 7) :=
  ⟨(c8_raw_code sampleDecode g42 [] [] c8stats rfl).1,
   (c8_raw_code sampleDecode g42 [] [] c8stats rfl).2 (Or.inr (by decide))⟩

/-- C10: only `Exiled` actions ever extend the eliminated set (it ends as
exactly the scanned `Exiled` names, in order), and for any player name with
no `Exiled` event in the sequence and not already eliminated, every decoded
`Died` action for that name appends its own `PlayerDeath` entry — duplicate
deaths are not suppressed and `Disconnected` events never suppress a later
death entry. -/
theorem c10_exile_only (decode : String → Option Player) (g : PostgresGame)
    (evs : List PostgresGameEvent) (acc res : GameStatistics × List String)
    (h : processEvents decode (some g) evs acc = some res) :
    res.2 = acc.2 ++ exiledNames decode evs ∧
    (∀ n, hasExiledFor decode n evs = false → n ∉ acc.2 →
      countDeathEntriesFor decode n res.1.events =
        countDeathEntriesFor decode n acc.1.events + countDiedFor decode n evs) := by
  rw [processEvents_some] at h
  obtain rfl := (Option.some_inj.mp h).symm
  exact ⟨processEventsP_snd decode g evs acc,
    fun n hx hm => processEventsP_deathsFor decode g n evs acc hx hm⟩

/-- C10 witness events: two `Died` actions for Bob, no `Exiled`. -/
def c10evs : List PostgresGameEvent :=
  [evPlayer 1020 "died:Bob", evPlayer 1030 "died:Bob"]

/-- The concrete loop state after scanning `c10evs`. -/
def c10res : GameStatistics × List String :=
  processEventsP sampleDecode gA c10evs (baseStats, [])

/-- C10 witness (see `c10_exile_only`): both duplicate deaths of Bob count. -/
theorem c10_exile_only_witness :
    countDeathEntriesFor sampleDecode "Bob" c10res.1.events =
      countDeathEntriesFor sampleDecode "Bob" baseStats.events +
        countDiedFor sampleDecode "Bob" c10evs :=
  (c10_exile_only sampleDecode gA c10evs (baseStats, []) c10res rfl).2 "Bob"
    (by decide) (List.not_mem_nil "Bob")

/-- `storage.PostgresBestTeammatePlayerRanking`: one result row of
`BestTeammateByRole` (`win_rate` is the SQL decimal `win / total * 100`). -/
structure PostgresBestTeammatePlayerRanking where
  userID : String
  teammateID : String
  total : Nat
  win : Nat
  winRate : ℚ
  deriving Repr, DecidableEq

/-- `storage.PostgresWorstTeammatePlayerRanking`: one result row of
`WorstTeammateByRole`. -/
structure PostgresWorstTeammatePlayerRanking where
  userID : String
  teammateID : String
  total : Nat
  loose : Nat
  looseRate : ℚ
  deriving Repr, DecidableEq

/-- The join of the teammate queries (stats.go lines 630-632 / 650-652):
`users_games INNER JOIN users_games uG ON same game_id and different
user_id`, restricted to the caller's guild, role (for both sides) and
user id.  The fact table is the list of `users_games` rows. -/
def teammateJoin (rows : List PostgresUserGame) (guildID : Int) (role : Int)
    (userID : String) : List (PostgresUserGame × PostgresUserGame) :=
  (rows.filter (fun a =>
      a.guildID == guildID && a.playerRole == role && a.userID == userID)).flatMap
    (fun a => (rows.filter (fun b =>
        b.gameID == a.gameID && !(b.userID == a.userID) && b.playerRole == role)).map
      (fun b => (a, b)))

/-- One aggregated row of `BestTeammateByRole`, grouped by teammate id:
`total = COUNT(player_won)`, `win = COUNT(...) FILTER (player_won = TRUE)`,
`win_rate = win / total * 100`. -/
def bestTeammateRow (userID : String)
    (joined : List (PostgresUserGame × PostgresUserGame)) (t : String) :
    PostgresBestTeammatePlayerRanking :=
  let grp := joined.filter (fun p => p.2.userID == t)
  let total := grp.length
  let win := (grp.filter (fun p => p.1.playerWon)).length
  ⟨userID, t, total, win, (win : ℚ) / (total : ℚ) * 100⟩

/-- One aggregated row of `WorstTeammateByRole`: `loose` counts lost
shared matches and `loose_rate = loose / total * 100`. -/
def worstTeammateRow (userID : String)
    (joined : List (PostgresUserGame × PostgresUserGame)) (t : String) :
    PostgresWorstTeammatePlayerRanking :=
  let grp := joined.filter (fun p => p.2.userID == t)
  let total := grp.length
  let loose := (grp.filter (fun p => !p.1.playerWon)).length
  ⟨userID, t, total, loose, (loose : ℚ) / (total : ℚ) * 100⟩

/-- The `ORDER BY win_rate DESC, win DESC, total DESC` relation of
`BestTeammateByRole`: `r` may precede `s`. -/
def bestRank (r s : PostgresBestTeammatePlayerRanking) : Prop :=
  s.winRate < r.winRate ∨ (r.winRate = s.winRate ∧
    (s.win < r.win ∨ (r.win = s.win ∧ s.total ≤ r.total)))

/-- The `ORDER BY loose_rate DESC, loose DESC, total DESC` relation of
`WorstTeammateByRole`. -/
def looseRank (r s : PostgresWorstTeammatePlayerRanking) : Prop :=
  s.looseRate < r.looseRate ∨ (r.looseRate = s.looseRate ∧
    (s.loose < r.loose ∨ (r.loose = s.loose ∧ s.total ≤ r.total)))

instance : DecidableRel bestRank := fun r s =>
  inferInstanceAs (Decidable (s.winRate < r.winRate ∨ (r.winRate = s.winRate ∧
    (s.win < r.win ∨ (r.win = s.win ∧ s.total ≤ r.total)))))

instance : DecidableRel looseRank := fun r s =>
  inferInstanceAs (Decidable (s.looseRate < r.looseRate ∨ (r.looseRate = s.looseRate ∧
    (s.loose < r.loose ∨ (r.loose = s.loose ∧ s.total ≤ r.total)))))

instance : IsTotal PostgresBestTeammatePlayerRanking bestRank := by
  constructor
  intro a b
  unfold bestRank
  rcases lt_trichotomy b.winRate a.winRate with h | h | h
  · exact Or.inl (Or.inl h)
  · rcases lt_trichotomy b.win a.win with h2 | h2 | h2
    · exact Or.inl (Or.inr ⟨h.symm, Or.inl h2⟩)
    · rcases le_total b.total a.total with h3 | h3
      · exact Or.inl (Or.inr ⟨h.symm, Or.inr ⟨h2.symm, h3⟩⟩)
      · exact Or.inr (Or.inr ⟨h, Or.inr ⟨h2, h3⟩⟩)
    · exact Or.inr (Or.inr ⟨h, Or.inl h2⟩)
  · exact Or.inr (Or.inl h)

instance : IsTrans PostgresBestTeammatePlayerRanking bestRank := by
  constructor
  intro a b c hab hbc
  unfold bestRank at hab hbc ⊢
  rcases hab with h1 | ⟨h1, h1b⟩ <;> rcases hbc with h2 | ⟨h2, h2b⟩
  · exact Or.inl (lt_trans h2 h1)
  · exact Or.inl (by rw [← h2]; exact h1)
  · exact Or.inl (by rw [h1]; exact h2)
  · refine Or.inr ⟨h1.trans h2, ?_⟩
    rcases h1b with w1 | ⟨w1, t1⟩ <;> rcases h2b with w2 | ⟨w2, t2⟩
    · exact Or.inl (by omega)
    · exact Or.inl (by omega)
    · exact Or.inl (by omega)
    · exact Or.inr ⟨by omega, by omega⟩

instance : IsTotal PostgresWorstTeammatePlayerRanking looseRank := by
  constructor
  intro a b
  unfold looseRank
  rcases lt_trichotomy b.looseRate a.looseRate with h | h | h
  · exact Or.inl (Or.inl h)
  · rcases lt_trichotomy b.loose a.loose with h2 | h2 | h2
    · exact Or.inl (Or.inr ⟨h.symm, Or.inl h2⟩)
    · rcases le_total b.total a.total with h3 | h3
      · exact Or.inl (Or.inr ⟨h.symm, Or.inr ⟨h2.symm, h3⟩⟩)
      · exact Or.inr (Or.inr ⟨h, Or.inr ⟨h2, h3⟩⟩)
    · exact Or.inr (Or.inr ⟨h, Or.inl h2⟩)
  · exact Or.inr (Or.inl h)

instance : IsTrans PostgresWorstTeammatePlayerRanking looseRank := by
  constructor
  intro a b c hab hbc
  unfold looseRank at hab hbc ⊢
  rcases hab with h1 | ⟨h1, h1b⟩ <;> rcases hbc with h2 | ⟨h2, h2b⟩
  · exact Or.inl (lt_trans h2 h1)
  · exact Or.inl (by rw [← h2]; exact h1)
  · exact Or.inl (by rw [h1]; exact h2)
  · refine Or.inr ⟨h1.trans h2, ?_⟩
    rcases h1b with w1 | ⟨w1, t1⟩ <;> rcases h2b with w2 | ⟨w2, t2⟩
    · exact Or.inl (by omega)
    · exact Or.inl (by omega)
    · exact Or.inl (by omega)
    · exact Or.inr ⟨by omega, by omega⟩

/-- `storage.BestTeammateByRole` (stats.go lines 623-641), as the relational
semantics of its query: join (`teammateJoin`), group by teammate id,
aggregate, `HAVING COUNT(player_won) >= leaderboardMin`, `ORDER BY win_rate
DESC, win DESC, total DESC`.  The guild identifier is modelled as the
numeric value the query compares against. -/
def BestTeammateByRole (rows : List PostgresUserGame) (userID : String)
    (guildID : Int) (role : Int) (leaderboardMin : Int) :
    List PostgresBestTeammatePlayerRanking :=
  let joined := teammateJoin rows guildID role userID
  let ts := (joined.map (fun p => p.2.userID)).eraseDups
  let kept := (ts.map (bestTeammateRow userID joined)).filter
    (fun r => leaderboardMin ≤ (r.total : Int))
  List.insertionSort bestRank kept

/-- `storage.WorstTeammateByRole` (stats.go lines 643-661). -/
def WorstTeammateByRole (rows : List PostgresUserGame) (userID : String)
    (guildID : Int) (role : Int) (leaderboardMin : Int) :
    List PostgresWorstTeammatePlayerRanking :=
  let joined := teammateJoin rows guildID role userID
  let ts := (joined.map (fun p => p.2.userID)).eraseDups
  let kept := (ts.map (worstTeammateRow userID joined)).filter
    (fun r => leaderboardMin ≤ (r.total : Int))
  List.insertionSort looseRank kept

/-- C9: neither teammate ranking returns a row whose shared-match count is
below the caller-supplied minimum, and both return their rows ordered by
rate descending, then raw win/loss count descending, then total shared
matches descending. -/
theorem c9_teammate_rankings (rows : List PostgresUserGame) (userID : String)
    (guildID role leaderboardMin : Int) :
    ((∀ r ∈ BestTeammateByRole rows userID guildID role leaderboardMin,
        leaderboardMin ≤ (r.total : Int)) ∧
      (BestTeammateByRole rows userID guildID role leaderboardMin).Pairwise bestRank) ∧
    ((∀ r ∈ WorstTeammateByRole rows userID guildID role leaderboardMin,
        leaderboardMin ≤ (r.total : Int)) ∧
      (WorstTeammateByRole rows userID guildID role leaderboardMin).Pairwise looseRank) := by
  refine ⟨⟨?_, ?_⟩, ⟨?_, ?_⟩⟩
  · intro r hr
    have hm := (List.perm_insertionSort bestRank _).mem_iff.mp hr
    have := (List.mem_filter.mp hm).2
    simpa using this
  · exact List.sorted_insertionSort bestRank _
  · intro r hr
    have hm := (List.perm_insertionSort looseRank _).mem_iff.mp hr
    have := (List.mem_filter.mp hm).2
    simpa using this
  · exact List.sorted_insertionSort looseRank _

/-- C9 witness fixture: two players sharing two matches in guild 1,
role 0 — one won, one lost. -/
def c9rows : List PostgresUserGame :=
  [⟨"u1", 1, 7, "A", 0, 0, true⟩, ⟨"u2", 1, 7, "B", 0, 0, true⟩,
   ⟨"u1", 1, 8, "A", 0, 0, false⟩, ⟨"u2", 1, 8, "B", 0, 0, false⟩]

/-- The aggregated row for teammate u2 of user u1 over `c9rows`. -/
def c9best : PostgresBestTeammatePlayerRanking :=
  bestTeammateRow "u1" (teammateJoin c9rows 1 0 "u1") "u2"

/-- The worst-teammate aggregated row for the same pair. -/
def c9worst : PostgresWorstTeammatePlayerRanking :=
  worstTeammateRow "u1" (teammateJoin c9rows 1 0 "u1") "u2"

/-- C9 witness (see `c9_teammate_rankings`). -/
theorem c9_teammate_rankings_witness :
    (1 : Int) ≤ (c9best.total : Int) ∧ (1 : Int) ≤ (c9worst.total : Int) :=
  ⟨(c9_teammate_rankings c9rows "u1" 1 0 1).1.1 c9best (List.Mem.head _),
   (c9_teammate_rankings c9rows "u1" 1 0 1).2.1 c9worst (List.Mem.head _)⟩

end AMU
